import Mathlib

/-!
Verification of the pygotu iGotU GT-200 protocol engine (`pygotu.py`,
`connections.py`) against its natural-language specification.

The embedding is shallow: bytes are `Nat` values below 256, byte strings are
`List Nat`, Python's arbitrary-precision integers are `Nat`/`Int` with explicit
`% 2^w` masking where the source masks, and fallible code returns
`Except PyErr`.  The transport (`connections.py`) is modelled as the list of
bytes it offers to `read`; `read n` returns the first `n` offered bytes, which
matches `USBSerial.read` (it blocks until `n` bytes are buffered).
-/

set_option maxRecDepth 100000

namespace PyGotu

/-- Python exception kinds raised by the modelled code paths. -/
inductive PyErr where
  | indexError
  | structError
  | protocolError
  | typeError
  | notImplementedError
  deriving DecidableEq

/-- Big-endian value of a byte list (first byte is most significant), as used
by `struct.unpack` with `>` formats. -/
def beVal : List Nat → Nat
  | [] => 0
  | b :: bs => b * 256 ^ bs.length + beVal bs

/-- Two's-complement signed reading of a `w`-byte big-endian quantity `v`
(`struct` formats `b`/`h`/`i`). -/
def toSigned (w : Nat) (v : Nat) : Int :=
  if v < 2 ^ (8 * w - 1) then (v : Int) else (v : Int) - 2 ^ (8 * w)

/-! ### Command framer (`GT200Dev.write_cmd`) -/

/-- Checksum byte computed by `GT200Dev.write_cmd`: the byte-wise sum of
`cmd1 ++ cmd2[0:7]`, then `((cs ^ 0xff) + 0x01) & 0xff`.  Python integers are
unbounded non-negative here, exactly like `Nat`. -/
def checksum (cmd1 cmd2 : List Nat) : Nat :=
  let cs := (cmd1 ++ cmd2.take 7).sum
  ((cs ^^^ 0xFF) + 0x01) &&& 0xFF

/-- Bytes sent by `GT200Dev.write_cmd` as its single transport write:
`cmd1 + cmd2[:7] + bytes([cs])`.  The source asserts `len cmd1 = len cmd2 = 8`
before building the frame. -/
def write_cmd (cmd1 cmd2 : List Nat) : List Nat :=
  cmd1 ++ (cmd2.take 7 ++ [checksum cmd1 cmd2])

/-! ### Response envelope parser (`GT200Dev.read_resp`) -/

/-- Field kinds of the `struct` format strings used with `read_resp`
(`H` unsigned 16-bit, `h` signed 16-bit, `B` unsigned byte, `b` signed byte,
`I` unsigned 32-bit, `i` signed 32-bit; all big-endian). -/
inductive Fld where
  | H
  | h
  | B
  | b
  | I
  | i
  deriving DecidableEq

/-- Byte width of a field kind. -/
def fldSize : Fld → Nat
  | .H => 2
  | .h => 2
  | .B => 1
  | .b => 1
  | .I => 4
  | .i => 4

/-- Integer decoded from the big-endian value `v` of a field's bytes. -/
def fldVal : Fld → Nat → Int
  | .H => fun v => (v : Int)
  | .B => fun v => (v : Int)
  | .I => fun v => (v : Int)
  | .h => toSigned 2
  | .b => toSigned 1
  | .i => toSigned 4

/-- Model of `struct.unpack(">" + fmt, bs)`: decodes the fields in order and
fails (`none`) unless `bs` has exactly the combined size of the format. -/
def unpackFields : List Fld → List Nat → Option (List Int)
  | [], [] => some []
  | [], _ :: _ => none
  | f :: fs, bs =>
    if bs.length < fldSize f then none
    else
      match unpackFields fs (bs.drop (fldSize f)) with
      | some vs => some (fldVal f (beVal (bs.take (fldSize f))) :: vs)
      | none => none

/-- Payload shape returned by `read_resp`: raw bytes when no format was given,
decoded integer fields otherwise. -/
inductive Resp where
  | raw (bs : List Nat)
  | fields (vs : List Int)
  deriving DecidableEq

/-- Model of `GT200Dev.read_resp` over the byte stream offered by the
transport.  It reads 3 header bytes, raises on a first byte other than `0x93`
(`recv[0]` itself raises IndexError on an empty read, and `unpack(">ch", recv)`
raises struct.error on a 1- or 2-byte read), decodes bytes 1-2 as a signed
big-endian 16-bit size, returns `none` for a negative size, and otherwise
reads `size` payload bytes, decoding them per the requested format. -/
def read_resp (fmtO : Option (List Fld)) (stream : List Nat) :
    Except PyErr (Option Resp) :=
  match stream.take 3 with
  | [] => .error .indexError
  | b0 :: rest =>
    if b0 ≠ 0x93 then .error .protocolError
    else
      match rest with
      | [b1, b2] =>
        let sz : Int := toSigned 2 (b1 * 256 + b2)
        if sz < 0 then .ok none
        else
          let resp := (stream.drop 3).take sz.toNat
          match fmtO with
          | none => .ok (some (.raw resp))
          | some fs =>
            match unpackFields fs resp with
            | some vs => .ok (some (.fields vs))
            | none => .error .structError
      | _ => .error .structError

/-- Spec-side encoder for the round-trip property: a header
`[0x93, size]` (size as two big-endian bytes) followed by the payload. -/
def encode_resp (payload : List Nat) : List Nat :=
  0x93 :: (payload.length / 256) :: (payload.length % 256) :: payload

/-! ### Record count (`GT200Dev.count`) -/

/-- Model of `GT200Dev.count` applied to the response stream of the
record-count command: `n1, n2 = read_resp(fmt="Hb"); num = n1*256 + n2`.
Unpacking a `None` response into the pair raises a TypeError. -/
def count (stream : List Nat) : Except PyErr Int :=
  match read_resp (some [.H, .b]) stream with
  | .error e => .error e
  | .ok none => .error .typeError
  | .ok (some (.fields [n1, n2])) => .ok (n1 * 256 + n2)
  | .ok _ => .error .typeError

/-- Count formula as the spec states it: `high_byte*256 + low_byte` over two
response bytes. -/
def specCount (hb lb : Nat) : Int := hb * 256 + lb

/-! ### Year reconstruction (`get_year`) -/

/-- Model of `get_year`, parameterised by `datetime.date.today().year`.
Python's floor division and subtraction agree with `Nat` division and
truncated subtraction whenever `2000 ≤ current_year`, which is the regime the
spec's claims are about.  `lru_cache` only memoises; the function of
`(current_year, year_offset)` is pure. -/
def get_year (current_year year_offset : Nat) : Nat :=
  let quotient := (current_year - 2000) / 16
  let year := 2000 + 16 * quotient + year_offset
  if year > current_year then year - 16 else year

/-- Year formula exactly as the spec words it:
`current_year − ((current_year−2000) mod 16) + offset`, minus 16 if the result
exceeds the current year. -/
def claimYear (current_year year_offset : Nat) : Nat :=
  let base := current_year - (current_year - 2000) % 16 + year_offset
  if base > current_year then base - 16 else base

/-! ### Satellite bit count (`bitcount`) -/

/-- Iterations of the `while n > 0` loop in `bitcount`, with explicit fuel.
Each iteration adds 1 when the low bit is set and shifts right by one. -/
def bitcountAux : Nat → Int → Nat
  | 0, _ => 0
  | fuel + 1, n =>
    if 0 < n then (if n % 2 = 1 then 1 else 0) + bitcountAux fuel (n / 2)
    else 0

/-- Model of `bitcount(n)`.  The loop halves `n` each round, so it runs at
most `n.toNat` times; `bitcountAux_fuel` below shows the fuel choice is
immaterial.  A non-positive `n` (the unpacked field is a signed int) never
enters the loop and yields 0. -/
def bitcount (n : Int) : Nat := bitcountAux n.toNat n

/-- Population count of a natural number, the quantity the spec names
("popcount = satellite count"), written with the same fuel pattern. -/
def popcountAux : Nat → Nat → Nat
  | 0, _ => 0
  | fuel + 1, n => if n = 0 then 0 else n % 2 + popcountAux fuel (n / 2)

/-- Number of set bits of `n`. -/
def popcount (n : Nat) : Nat := popcountAux n n

/-! ### Record decoder (`GTRecord`) -/

/-- Result of Python's `calendar` leap-year rule used by `datetime`. -/
def isLeap (y : Nat) : Bool := y % 4 == 0 && (y % 100 != 0 || y % 400 == 0)

/-- Days of month `m` in year `y` (proleptic Gregorian, as `datetime`). -/
def daysInMonth (y m : Nat) : Nat :=
  if m = 2 then (if isLeap y then 29 else 28)
  else if m = 4 ∨ m = 6 ∨ m = 9 ∨ m = 11 then 30
  else 31

/-- Validity test of `datetime.datetime(y, m, d, hh, mm, ss, us)`: the
constructor raises `ValueError` outside these ranges. -/
def dateOKb (y m d hh mm ss us : Nat) : Bool :=
  decide (1 ≤ y) && decide (y ≤ 9999) && decide (1 ≤ m) && decide (m ≤ 12)
    && decide (1 ≤ d) && decide (d ≤ daysInMonth y m) && decide (hh < 24)
    && decide (mm < 60) && decide (ss < 60) && decide (us < 1000000)

/-- Year field of a raw record: `get_year(ym >> 4)` with `ym` byte 1. -/
def recYear (cy : Nat) (s : List Nat) : Nat := get_year cy (s.getD 1 0 >>> 4)

/-- Month field: `(ym & 0x0F) % 13`. -/
def recMonth (s : List Nat) : Nat := (s.getD 1 0 &&& 0x0F) % 13

/-- Big-endian halfword `dhm` at bytes 2-3 of a raw record. -/
def recDHM (s : List Nat) : Nat := s.getD 2 0 * 256 + s.getD 3 0

/-- Day field: `dhm >> 11`, clamped up to 1 (`if day <= 0: day = 1`). -/
def recDay (s : List Nat) : Nat :=
  let d := recDHM s >>> 11
  if d ≤ 0 then 1 else d

/-- Hour field: `((dhm >> 6) & 0b00011111) % 24`. -/
def recHour (s : List Nat) : Nat := ((recDHM s >>> 6) &&& 0x1F) % 24

/-- Minute field: `(dhm & 0b00111111) % 60`. -/
def recMin (s : List Nat) : Nat := (recDHM s &&& 0x3F) % 60

/-- Big-endian halfword `ms` at bytes 4-5 of a raw record. -/
def recMSW (s : List Nat) : Nat := s.getD 4 0 * 256 + s.getD 5 0

/-- Second field: `int(ms / 1000) % 60`. -/
def recSec (s : List Nat) : Nat := (recMSW s / 1000) % 60

/-- Microsecond field: `ms % 1000`. -/
def recMs (s : List Nat) : Nat := recMSW s % 1000

/-- Truth of the `try: datetime.datetime(...)` construction in
`GTRecord.__init__` for raw record `s` under current year `cy`. -/
def recDateOK (cy : Nat) (s : List Nat) : Bool :=
  dateOKb (recYear cy s) (recMonth s) (recDay s) (recHour s) (recMin s)
    (recSec s) (recMs s)

/-- Validity state of a record after the date check and the `flag & 0x20`
check in `GTRecord.__init__`, before kind dispatch. -/
def valid0 (cy : Nat) (s : List Nat) : Bool :=
  recDateOK cy s && (s.getD 0 0 &&& 0x20 == 0)

/-- Raw 32-bit satellite-bitmap field (bytes 8-11, before sign handling). -/
def rawSatMap (s : List Nat) : Nat := beVal ((s.drop 8).take 4)

/-- Raw latitude field: signed 32-bit big-endian at bytes 12-15. -/
def rawLat (s : List Nat) : Int := toSigned 4 (beVal ((s.drop 12).take 4))

/-- Raw longitude field: signed 32-bit big-endian at bytes 16-19. -/
def rawLon (s : List Nat) : Int := toSigned 4 (beVal ((s.drop 16).take 4))

/-- Timestamp carried by a decoded record (the `datetime.datetime` value). -/
structure DT where
  y : Nat
  m : Nat
  d : Nat
  hh : Nat
  mm : Nat
  ss : Nat
  us : Nat
  deriving DecidableEq

/-- Decoded record.  Floating-point display fields of the source
(`lat = r_lat/1e7`, elevation, speed, course, ehpe) are kept as their raw
integer numerators: the only control-flow use the source makes of them is the
`lat == 0 and lon == 0` test, and `r_lat/1e7 == 0.0` holds exactly when
`r_lat == 0` for 32-bit magnitudes.  `desc` and `flagopts` (debug strings) and
the unused `plr` field are omitted. -/
structure GTRecord where
  valid : Bool
  idx : Nat
  flag : Nat
  kind : String
  msg : Option String
  sat : Nat
  r_lat : Int
  r_lon : Int
  datetime : Option DT
  deriving DecidableEq

/-- Model of `GTRecord.__init__` on a 32-byte raw slot.  A short slot makes
one of the `unpack` calls raise struct.error.  Flag `0xF1` dispatches to
`parse_device_log`, which calls `bytes.replace` with `str` arguments and
therefore raises TypeError on Python 3 (the declared target, per setup.py);
flag `0xF5` dispatches to `parse_heartbeat`, which raises
`NotImplementedError`; everything else is decoded by `parse_waypoint`. -/
def decode (cy idx : Nat) (s : List Nat) : Except PyErr GTRecord :=
  if s.length < 0x20 then .error .structError
  else
    let flag := s.getD 0 0
    if flag = 0xF1 then .error .typeError
    else if flag = 0xF5 then .error .notImplementedError
    else
      let r_lat := rawLat s
      let r_lon := rawLon s
      .ok
        { valid := if r_lat = 0 ∧ r_lon = 0 then false else valid0 cy s
          idx := idx
          flag := flag
          kind := "WP"
          msg := none
          sat := bitcount (toSigned 4 (rawSatMap s))
          r_lat := r_lat
          r_lon := r_lon
          datetime :=
            if recDateOK cy s then
              some ⟨recYear cy s, recMonth s, recDay s, recHour s, recMin s,
                recSec s, recMs s⟩
            else none }

/-- Satellite count of a successfully decoded record, `none` on an error. -/
def decodedSat (e : Except PyErr GTRecord) : Option Nat :=
  match e with
  | .ok r => some r.sat
  | .error _ => none

/-! ### Record iterator (`GT200Dev.all_records`) -/

/-- Decoding loop of `all_records` over consecutive 32-byte slots: each slot
is decoded with its running index, exceptions propagate, and only records
with `valid == true` are yielded. -/
def decodeAll (cy : Nat) : Nat → List (List Nat) → Except PyErr (List GTRecord)
  | _, [] => .ok []
  | idx, s :: rest =>
    match decode cy idx s with
    | .error e => .error e
    | .ok r =>
      match decodeAll cy (idx + 1) rest with
      | .error e => .error e
      | .ok rs => .ok (if r.valid then r :: rs else rs)

/-- Model of `GT200Dev.all_records`: flash is abstracted as the list of
32-byte slots the block reads produce in order, and the loop stops after the
`count()` total of `n` slots. -/
def all_records (cy n : Nat) (slots : List (List Nat)) :
    Except PyErr (List GTRecord) :=
  decodeAll cy 0 (slots.take n)

/-! ### Track assembler (`GT200Dev.all_tracks`) -/

/-- Loop body of `all_tracks` with the pending list `cur` explicit: a `WP`
record is appended to the pending list, a `LOG` record with message exactly
`"RESET COUNTER"` flushes a non-empty pending list as a track, anything else
leaves the state unchanged, and the final pending list is flushed at end of
stream.  Tracks are modelled as their record lists (`GTTrack.num_points` is
the list length). -/
def all_tracks_aux : List GTRecord → List GTRecord → List (List GTRecord)
  | cur, [] => if cur = [] then [] else [cur]
  | cur, r :: rest =>
    let cur2 := if r.kind = "WP" then cur ++ [r] else cur
    if r.kind = "LOG" ∧ r.msg = some "RESET COUNTER" then
      if cur2 = [] then all_tracks_aux cur2 rest
      else cur2 :: all_tracks_aux [] rest
    else all_tracks_aux cur2 rest

/-- Model of `GT200Dev.all_tracks` on the record stream it consumes. -/
def all_tracks (recs : List GTRecord) : List (List GTRecord) :=
  all_tracks_aux [] recs

/-! ### Purge state machine (`purge_all_120`, `purge_all_gt900`) -/

/-- Blank test used by both purge variants: the first 16 bytes of block `i`
(`flash_read(pos=i*0x1000, size=0x10)`, abstracted as `read16 i`) all equal
`0xFF`. -/
def blank16 (read16 : Nat → List Nat) (i : Nat) : Bool :=
  read16 i == List.replicate 0x10 0xFF

/-- Descending scan shared by both purge variants, recorded as the list of
block indices that receive a `flash_write_purge` (block-erase) command.  With
the flag clear, a blank block is skipped; the first non-blank block sets the
flag; with the flag set every remaining block is erased without being read
again.  (The surrounding `unk_write1`/`unk_write2` handshakes carry no
branching on flash contents and are not part of the erase trace.) -/
def purgeScan (read16 : Nat → List Nat) : Nat → Bool → List Nat
  | 0, _ => []
  | i + 1, pf =>
    if pf then (i + 1) :: purgeScan read16 i true
    else if blank16 read16 (i + 1) then purgeScan read16 i false
    else (i + 1) :: purgeScan read16 i true

/-- Erase trace of `purge_all_120`: `for i in range(n_blocks, 0, -1)`, so the
scan starts at `n_blocks` (from `model_info`) and its floor is block 1. -/
def purge_all_120 (n_blocks : Nat) (read16 : Nat → List Nat) : List Nat :=
  purgeScan read16 n_blocks false

/-- Erase trace of `purge_all_gt900`: `for i in range(n_blocks-1, 0, -1)`
with `n_blocks = 0x700` fixed, so the scan starts at `0x6FF` with floor 1. -/
def purge_all_gt900 (read16 : Nat → List Nat) : List Nat :=
  purgeScan read16 (0x700 - 1) false

/-- Descending run of block indices `[i, i-1, ..., 1]`. -/
def descList : Nat → List Nat
  | 0 => []
  | i + 1 => (i + 1) :: descList i

/-- Simulated flash of the spec's purge scenario: blocks at index 500 and
above are blank (`0xFF` × 16), blocks below are non-blank. -/
def simFlash (i : Nat) : List Nat :=
  if 500 ≤ i then List.replicate 0x10 0xFF else List.replicate 0x10 0x00

/-! ### Concrete sample data used by witnesses and counterexamples -/

/-- Assembler-level waypoint record. -/
def wpRec (i : Nat) : GTRecord :=
  { valid := true, idx := i, flag := 0x04, kind := "WP", msg := none,
    sat := 0, r_lat := 1, r_lon := 1, datetime := none }

/-- Assembler-level `RESET COUNTER` log record. -/
def resetRec : GTRecord :=
  { valid := false, idx := 0, flag := 0xF1, kind := "LOG",
    msg := some "RESET COUNTER", sat := 0, r_lat := 0, r_lon := 0,
    datetime := none }

/-- Assembler-level log record with a different message. -/
def otherRec : GTRecord :=
  { valid := false, idx := 0, flag := 0xF1, kind := "LOG",
    msg := some "POWER ON", sat := 0, r_lat := 0, r_lon := 0,
    datetime := none }

/-- Record stream of the spec's track-assembly example. -/
def demoStream : List GTRecord :=
  [wpRec 0, wpRec 1, resetRec, wpRec 2, wpRec 3, wpRec 4]

/-- Raw 32-byte record with the given flag, satellite-bitmap, latitude and
longitude bytes; the date fields decode to January 1 (valid), remaining
payload bytes are zero. -/
def rawRec (flag : Nat) (satB latB lonB : List Nat) : List Nat :=
  [flag, 0x01, 0x08, 0x00, 0x00, 0x00] ++ [0, 0] ++ satB ++ latB ++ lonB
    ++ List.replicate 12 0

/-! ### Arithmetic facts about the checksum -/

/-- Masking with `0xFF` is reduction modulo 256. -/
theorem and255_eq_mod (x : Nat) : x &&& 255 = x % 256 := by
  have h256 : (256 : Nat) = 2 ^ 8 := by norm_num
  have h255 : (255 : Nat) = 2 ^ 8 - 1 := by norm_num
  apply Nat.eq_of_testBit_eq
  intro i
  rw [h256, Nat.testBit_and, Nat.testBit_mod_two_pow, h255,
    Nat.testBit_two_pow_sub_one]
  cases Nat.testBit x i <;> simp [Bool.and_comm]

/-- XOR with `0xFF` commutes with reduction modulo 256. -/
theorem xor255_mod (s : Nat) : (s ^^^ 255) % 256 = (s % 256) ^^^ 255 := by
  have h256 : (256 : Nat) = 2 ^ 8 := by norm_num
  have h255 : (255 : Nat) = 2 ^ 8 - 1 := by norm_num
  apply Nat.eq_of_testBit_eq
  intro i
  rw [h256, Nat.testBit_mod_two_pow, Nat.testBit_xor, Nat.testBit_xor,
    Nat.testBit_mod_two_pow, h255, Nat.testBit_two_pow_sub_one]
  by_cases h : i < 8 <;> simp [h]

/-- Below 256, XOR with `0xFF` is the bitwise complement `255 - r`. -/
theorem xor255_lt (r : Fin 256) : (r.val ^^^ 255) = 255 - r.val := by
  revert r
  decide

/-- Central checksum identity: for every natural `s`,
`(s + (((s ^ 0xFF) + 1) & 0xFF)) & 0xFF = 0`. -/
theorem checksum_cancels (s : Nat) :
    (s + (((s ^^^ 255) + 1) &&& 255)) &&& 255 = 0 := by
  have hr : s % 256 < 256 := Nat.mod_lt _ (by norm_num)
  have hx : (s ^^^ 255) % 256 = 255 - s % 256 := by
    rw [xor255_mod]
    exact xor255_lt ⟨s % 256, hr⟩
  rw [and255_eq_mod, and255_eq_mod]
  omega

/-! ### Claim C1 -/

/-- C1: for every pair of 8-byte command halves, the framer sends exactly the
16 bytes `cmd1 ++ cmd2[0:7] ++ [checksum]` as its single write, and the
checksum byte computed as `((sum XOR 0xFF) + 1) & 0xFF` over the 15-byte
prefix satisfies `(sum(prefix) + checksum) & 0xFF == 0`. -/
theorem C1_write_cmd_checksum (cmd1 cmd2 : List Nat)
    (h1 : cmd1.length = 8) (h2 : cmd2.length = 8) :
    write_cmd cmd1 cmd2 = cmd1 ++ cmd2.take 7 ++ [checksum cmd1 cmd2]
      ∧ (write_cmd cmd1 cmd2).length = 16
      ∧ ((cmd1 ++ cmd2.take 7).sum + checksum cmd1 cmd2) &&& 0xFF = 0 := by
  refine ⟨by simp [write_cmd], ?_, ?_⟩
  · simp [write_cmd, h1, h2]
  · simpa [checksum] using checksum_cancels (cmd1 ++ cmd2.take 7).sum

/-- Witness for C1 at the identify command frame. -/
theorem C1_write_cmd_checksum_witness :
    write_cmd [0x93, 0x0A, 0, 0, 0, 0, 0, 0] [0, 0, 0, 0, 0, 0, 0, 0]
        = [0x93, 0x0A, 0, 0, 0, 0, 0, 0]
          ++ ([0, 0, 0, 0, 0, 0, 0, 0] : List Nat).take 7
          ++ [checksum [0x93, 0x0A, 0, 0, 0, 0, 0, 0] [0, 0, 0, 0, 0, 0, 0, 0]]
      ∧ (write_cmd [0x93, 0x0A, 0, 0, 0, 0, 0, 0]
          [0, 0, 0, 0, 0, 0, 0, 0]).length = 16
      ∧ (([0x93, 0x0A, 0, 0, 0, 0, 0, 0]
            ++ ([0, 0, 0, 0, 0, 0, 0, 0] : List Nat).take 7).sum
          + checksum [0x93, 0x0A, 0, 0, 0, 0, 0, 0]
            [0, 0, 0, 0, 0, 0, 0, 0]) &&& 0xFF = 0 :=
  C1_write_cmd_checksum [0x93, 0x0A, 0, 0, 0, 0, 0, 0]
    [0, 0, 0, 0, 0, 0, 0, 0] rfl rfl

/-! ### Claim C2 -/

/-- C2: the response reader fails when the first header byte is not `0x93`;
a negative signed big-endian 16-bit size yields `None` regardless of any
payload bytes present; and decoding the encoding of a header `[0x93, size]`
followed by `size` payload bytes recovers exactly that payload — raw without
a field format, field-decoded (big-endian, per the caller's layout) with
one. -/
theorem C2_read_resp_roundtrip :
    (∀ fmtO stream, stream ≠ [] → stream.getD 0 0 ≠ 0x93 →
      read_resp fmtO stream = .error .protocolError)
    ∧ (∀ fmtO b1 b2 rest, 0x80 ≤ b1 → b1 ≤ 0xFF → b2 ≤ 0xFF →
      read_resp fmtO (0x93 :: b1 :: b2 :: rest) = .ok none)
    ∧ (∀ payload : List Nat, payload.length ≤ 0x7FFF →
      read_resp none (encode_resp payload) = .ok (some (.raw payload)))
    ∧ (∀ fs payload vs, payload.length ≤ 0x7FFF →
      unpackFields fs payload = some vs →
      read_resp (some fs) (encode_resp payload) = .ok (some (.fields vs))) := by
  have hsz : ∀ n : Nat, n ≤ 0x7FFF →
      toSigned 2 (n / 256 * 256 + n % 256) = (n : Int) := by
    intro n hn
    have hdm : n / 256 * 256 + n % 256 = n := by omega
    rw [hdm, toSigned, if_pos]
    have : n < 2 ^ 15 := by omega
    exact_mod_cast by omega
  have hmain : ∀ fmtO payload, payload.length ≤ 0x7FFF →
      read_resp fmtO (encode_resp payload)
        = match fmtO with
          | none => .ok (some (.raw payload))
          | some fs =>
            match unpackFields fs payload with
            | some vs => .ok (some (.fields vs))
            | none => .error .structError := by
    intro fmtO payload hlen
    have h1 := hsz payload.length hlen
    simp only [read_resp, encode_resp, List.take, List.drop]
    rw [h1]
    rw [if_neg (by simp), if_neg (by omega)]
    simp [List.take_length]
  refine ⟨?_, ?_, ?_, ?_⟩
  · intro fmtO stream hne h0
    match stream with
    | b0 :: t =>
      have hb0 : b0 ≠ 0x93 := by simpa using h0
      simp [read_resp, List.take, hb0]
  · intro fmtO b1 b2 rest hb1 hb1u hb2
    have hneg : toSigned 2 (b1 * 256 + b2) < 0 := by
      rw [toSigned, if_neg (by omega)]
      have : b1 * 256 + b2 < 2 ^ 16 := by omega
      omega
    simp [read_resp, List.take, hneg]
  · intro payload hlen
    simpa using hmain none payload hlen
  · intro fs payload vs hlen hun
    refine (hmain (some fs) payload hlen).trans ?_
    show (match unpackFields fs payload with
      | some vs => Except.ok (some (Resp.fields vs))
      | none => Except.error PyErr.structError) = _
    rw [hun]

/-- Witness for C2: a bad first header byte, a negative size, and a raw and a
formatted round trip at concrete inputs. -/
theorem C2_read_resp_roundtrip_witness :
    read_resp none [0x41, 0x00, 0x00] = .error .protocolError
    ∧ read_resp none [0x93, 0x80, 0x00, 0x09, 0x09] = .ok none
    ∧ read_resp none (encode_resp [1, 2, 3]) = .ok (some (.raw [1, 2, 3]))
    ∧ read_resp (some [.H, .b]) (encode_resp [0, 2, 3])
        = .ok (some (.fields [2, 3])) :=
  ⟨C2_read_resp_roundtrip.1 none [0x41, 0x00, 0x00] (by decide) (by decide),
   C2_read_resp_roundtrip.2.1 none 0x80 0x00 [0x09, 0x09] (by decide)
     (by decide) (by decide),
   C2_read_resp_roundtrip.2.2.1 [1, 2, 3] (by decide),
   C2_read_resp_roundtrip.2.2.2 [.H, .b] [0, 2, 3] [2, 3] (by decide)
     (by decide)⟩

/-! ### Claim C5 -/

/-- C5 counterexample: on the response payload `[0x00, 0x00, 0xFF]` the code
returns `-1` (the third payload byte is unpacked as a *signed* byte), which no
`high_byte*256 + low_byte` over response bytes can equal. -/
theorem C5_count_counterexample :
    count [0x93, 0x00, 0x03, 0x00, 0x00, 0xFF] = .ok (-1)
      ∧ specCount 0 255 = 255 ∧ specCount 0 0 = 0
      ∧ (-1 : Int) ≠ 255 ∧ (-1 : Int) ≠ 0 := by
  refine ⟨by rfl, by decide, by decide, by decide, by decide⟩

/-- C5 as amended: `count()` returns `n1*256 + n2` where `n1` is the unsigned
big-endian 16-bit value of payload bytes 0-1 and `n2` is the *signed* value
of payload byte 2; this coincides with `high_byte*256 + low_byte` (bytes 1
and 2) exactly when payload byte 0 is zero and byte 2 is below `0x80`, and
the spec's byte formula can never be negative. -/
theorem C5_count_signed (b0 b1 b2 : Nat)
    (_h0 : b0 ≤ 0xFF) (_h1 : b1 ≤ 0xFF) (_h2 : b2 ≤ 0xFF) :
    count [0x93, 0x00, 0x03, b0, b1, b2]
        = .ok ((b0 * 256 + b1) * 256 + toSigned 1 b2)
      ∧ (b0 = 0 → b2 < 0x80 →
        ((b0 * 256 + b1) * 256 + toSigned 1 b2 : Int) = specCount b1 b2)
      ∧ (∀ hb lb : Nat, specCount hb lb ≠ -1) := by
  refine ⟨?_, ?_, ?_⟩
  · have hsz : toSigned 2 (0 * 256 + 3) = (3 : Int) := by decide
    simp only [count, read_resp, List.take, List.drop]
    rw [if_neg (by simp), hsz, if_neg (by omega)]
    simp only [Int.toNat_ofNat, List.take, unpackFields, fldSize, fldVal,
      beVal]
    norm_num
  · intro hb0 hb2
    subst hb0
    rw [toSigned, if_pos (by exact_mod_cast by omega)]
    simp [specCount]
  · intro hb lb
    have : (0 : Int) ≤ specCount hb lb := by
      simp only [specCount]
      positivity
    omega

/-- Witness for the amended C5 at payload `[0, 2, 3]`. -/
theorem C5_count_signed_witness :
    count [0x93, 0x00, 0x03, 0, 2, 3]
        = .ok ((0 * 256 + 2) * 256 + toSigned 1 3)
      ∧ (0 = 0 → 3 < 0x80 →
        ((0 * 256 + 2) * 256 + toSigned 1 3 : Int) = specCount 2 3)
      ∧ (∀ hb lb : Nat, specCount hb lb ≠ -1) :=
  C5_count_signed 0 2 3 (by decide) (by decide) (by decide)

/-! ### Claim C7 -/

/-- C7: for every offset in `[0,15]` and current calendar year ≥ 2000,
`get_year` returns a year ≤ the current year, and it equals the spec's
formula `current_year − ((current_year−2000) mod 16) + offset`, with 16
subtracted if the result exceeds the current year.  Stability of repeated
calls within a run is immediate: the embedding is a pure function of
`(current_year, offset)`, and `lru_cache` only memoises it. -/
theorem C7_get_year_le (cy off : Nat) (hcy : 2000 ≤ cy) (hoff : off ≤ 15) :
    get_year cy off ≤ cy ∧ get_year cy off = claimYear cy off := by
  have hdm := Nat.div_add_mod (cy - 2000) 16
  have hlt : (cy - 2000) % 16 < 16 := Nat.mod_lt _ (by norm_num)
  simp only [get_year, claimYear]
  refine ⟨?_, ?_⟩ <;> (split <;> (try split) <;> omega)

/-- Witness for C7 at current year 2026 and offset 3. -/
theorem C7_get_year_le_witness :
    get_year 2026 3 ≤ 2026 ∧ get_year 2026 3 = claimYear 2026 3 :=
  C7_get_year_le 2026 3 (by decide) (by decide)

/-! ### Claim C3 -/

/-- C3 counterexample: on the spec's simulated flash (blocks 500..600 blank,
1..499 non-blank) the GT-120 variant over 600 blocks skips the blank block
500 as well and erases exactly 499 down to 1 — not 500 down to 1 as the
claim's concrete instance states.  The same holds for the GT-900 variant. -/
theorem C3_purge_scan_counterexample :
    purge_all_120 600 simFlash = descList 499
      ∧ purge_all_gt900 simFlash = descList 499
      ∧ descList 499 ≠ descList 500
      ∧ (500 : Nat) ∉ purge_all_120 600 simFlash := by
  refine ⟨by decide, by decide, by decide, by decide⟩

/-- C3 as amended: the purge scan runs over descending block indices; once
the dirty flag is set every remaining block down to 1 receives exactly one
erase command with no further blank checks; while the flag is clear a blank
block (first 16 bytes `0xFF`) is skipped and a non-blank block starts the
unconditional erase run.  Concretely, with blocks ≥ 500 blank and blocks
1..499 non-blank, the GT-120 variant over 600 blocks skips 600 down to 500
(all blank) and then erases exactly 499 down to 1 once each, and the GT-900
variant (scan start `0x6FF`, same floor 1) erases exactly the same run. -/
theorem C3_purge_scan :
    (∀ (read16 : Nat → List Nat) i, purgeScan read16 i true = descList i)
    ∧ (∀ (read16 : Nat → List Nat) i, blank16 read16 (i + 1) = true →
      purgeScan read16 (i + 1) false = purgeScan read16 i false)
    ∧ (∀ (read16 : Nat → List Nat) i, blank16 read16 (i + 1) = false →
      purgeScan read16 (i + 1) false = (i + 1) :: descList i)
    ∧ purge_all_120 600 simFlash = descList 499
    ∧ purge_all_gt900 simFlash = descList 499 := by
  have h1 : ∀ (read16 : Nat → List Nat) i,
      purgeScan read16 i true = descList i := by
    intro read16 i
    induction i with
    | zero => rfl
    | succ n ih => simp [purgeScan, descList, ih]
  refine ⟨h1, ?_, ?_, by decide, by decide⟩
  · intro read16 i hb
    simp [purgeScan, hb]
  · intro read16 i hb
    simp [purgeScan, hb, h1]

/-- Witness for C3: an unconditional run, a skipped blank block and the first
non-blank block on the simulated flash. -/
theorem C3_purge_scan_witness :
    purgeScan simFlash 3 true = descList 3
    ∧ purgeScan simFlash 501 false = purgeScan simFlash 500 false
    ∧ purgeScan simFlash 499 false = 499 :: descList 498 :=
  ⟨C3_purge_scan.1 simFlash 3,
   C3_purge_scan.2.1 simFlash 500 (by decide),
   C3_purge_scan.2.2.1 simFlash 498 (by decide)⟩

/-! ### Claim C4 -/

/-- C4: the track assembler accumulates waypoint records, flushes the pending
list as a track exactly at a non-empty `LOG "RESET COUNTER"` boundary,
ignores every other record (removing such a record anywhere in the stream
leaves the output unchanged), and flushes the remaining pending list at end
of stream; the spec's example stream yields two tracks of 2 and 3 points and
the empty stream yields no tracks. -/
theorem C4_all_tracks_spec :
    (all_tracks demoStream).map List.length = [2, 3]
    ∧ all_tracks ([] : List GTRecord) = []
    ∧ (∀ r : GTRecord, r.kind ≠ "WP" →
        ¬(r.kind = "LOG" ∧ r.msg = some "RESET COUNTER") →
        ∀ l post : List GTRecord,
          all_tracks (l ++ r :: post) = all_tracks (l ++ post))
    ∧ (∀ l : List GTRecord, l ≠ [] → (∀ r ∈ l, r.kind = "WP") →
        all_tracks l = [l]) := by
  have hins : ∀ r : GTRecord, r.kind ≠ "WP" →
      ¬(r.kind = "LOG" ∧ r.msg = some "RESET COUNTER") →
      ∀ (l post cur : List GTRecord),
        all_tracks_aux cur (l ++ r :: post) = all_tracks_aux cur (l ++ post) := by
    intro r hk hr l
    induction l with
    | nil =>
      intro post cur
      simp only [List.nil_append, all_tracks_aux]
      rw [if_neg hk, if_neg hr]
    | cons a l ih =>
      intro post cur
      simp only [List.cons_append, all_tracks_aux]
      split_ifs <;> simp [ih]
  have hwp : ∀ l : List GTRecord, (∀ r ∈ l, r.kind = "WP") →
      ∀ cur, l ≠ [] → all_tracks_aux cur l = [cur ++ l] := by
    intro l
    induction l with
    | nil => intro _ cur hne; exact absurd rfl hne
    | cons a l ih =>
      intro h cur _
      have ha : a.kind = "WP" := h a (by simp)
      have hnr : ¬(a.kind = "LOG" ∧ a.msg = some "RESET COUNTER") := by
        simp [ha]
      simp only [all_tracks_aux]
      rw [if_pos ha, if_neg hnr]
      cases l with
      | nil => simp [all_tracks_aux]
      | cons b l2 =>
        rw [ih (fun x hx => h x (by simp [hx])) (cur ++ [a]) (by simp)]
        simp
  refine ⟨by decide, rfl, ?_, ?_⟩
  · intro r hk hr l post
    exact hins r hk hr l post []
  · intro l hne hall
    simpa using hwp l hall [] hne

/-- Witness for C4: dropping an ignored log record leaves the tracks
unchanged, and an all-waypoint stream forms a single track. -/
theorem C4_all_tracks_spec_witness :
    all_tracks ([wpRec 0] ++ otherRec :: [wpRec 1])
        = all_tracks ([wpRec 0] ++ [wpRec 1])
    ∧ all_tracks [wpRec 0, wpRec 1] = [[wpRec 0, wpRec 1]] :=
  ⟨C4_all_tracks_spec.2.2.1 otherRec (by decide) (by decide) [wpRec 0]
     [wpRec 1],
   C4_all_tracks_spec.2.2.2 [wpRec 0, wpRec 1] (by decide) (by decide)⟩

/-! ### Facts about the bit-count loop and raw fields -/

/-- Fuel irrelevance of the bit-count loop: any fuel of at least `n.toNat`
computes the same value, so `bitcount` models the unbounded `while n > 0`
loop of the source. -/
theorem bitcountAux_fuel (f1 : Nat) :
    ∀ (f2 : Nat) (n : Int), n.toNat ≤ f1 → n.toNat ≤ f2 →
      bitcountAux f1 n = bitcountAux f2 n := by
  induction f1 with
  | zero =>
    intro f2 n h1 _
    have hn : ¬(0 : Int) < n := by omega
    cases f2 with
    | zero => rfl
    | succ g => simp [bitcountAux, hn]
  | succ g1 ih =>
    intro f2 n h1 h2
    by_cases hpos : (0 : Int) < n
    · cases f2 with
      | zero => omega
      | succ g2 =>
        simp only [bitcountAux, if_pos hpos]
        congr 1
        exact ih g2 (n / 2) (by omega) (by omega)
    · cases f2 with
      | zero => simp [bitcountAux, hpos]
      | succ g2 => simp [bitcountAux, hpos]

/-- The bit-count loop on a natural number is the population count. -/
theorem bitcountAux_eq_popcountAux (fuel : Nat) :
    ∀ n : Nat, bitcountAux fuel (n : Int) = popcountAux fuel n := by
  induction fuel with
  | zero => intro n; rfl
  | succ g ih =>
    intro n
    simp only [bitcountAux, popcountAux]
    by_cases hn : n = 0
    · simp [hn]
    · have hpos : (0 : Int) < (n : Int) := by
        exact_mod_cast Nat.pos_of_ne_zero hn
      rw [if_pos hpos, if_neg hn]
      have hdiv : ((n : Int) / 2) = ((n / 2 : Nat) : Int) := by omega
      rw [hdiv, ih (n / 2)]
      have hm : ((n : Int) % 2) = ((n % 2 : Nat) : Int) := by omega
      by_cases h2 : n % 2 = 1
      · simp [hm, h2]
      · have h0 : n % 2 = 0 := by omega
        simp [hm, h0, h2]

/-- Result of `bitcount` on a natural number cast to `Int`. -/
theorem bitcount_natCast (n : Nat) : bitcount (n : Int) = popcount n := by
  rw [bitcount, popcount]
  have h : ((n : Int)).toNat = n := Int.toNat_natCast n
  rw [h]
  exact bitcountAux_eq_popcountAux n n

/-- Result of `bitcount` on a non-positive argument: the loop never runs. -/
theorem bitcount_nonpos (n : Int) (h : n ≤ 0) : bitcount n = 0 := by
  have h0 : n.toNat = 0 := by omega
  rw [bitcount, h0]
  rfl

/-- Bound of a big-endian byte value by its width. -/
theorem beVal_lt (bs : List Nat) (h : ∀ b ∈ bs, b < 256) :
    beVal bs < 256 ^ bs.length := by
  induction bs with
  | nil => simp [beVal]
  | cons b t ih =>
    have hb : b < 256 := h b (by simp)
    have ht := ih (fun x hx => h x (by simp [hx]))
    simp only [beVal, List.length_cons]
    have hp : 0 < 256 ^ t.length := Nat.pos_pow_of_pos _ (by norm_num)
    have hb255 : b * 256 ^ t.length ≤ 255 * 256 ^ t.length :=
      Nat.mul_le_mul_right _ (by omega)
    have hpow : 256 ^ (t.length + 1) = 256 ^ t.length * 256 := by
      rw [pow_succ]
    omega

/-- Successful decode of a non-log, non-heartbeat 32-byte slot, with the
record fully spelled out. -/
theorem decode_ok (cy idx : Nat) (s : List Nat) (hlen : 0x20 ≤ s.length)
    (hf1 : s.getD 0 0 ≠ 0xF1) (hf5 : s.getD 0 0 ≠ 0xF5) :
    decode cy idx s = .ok
      { valid := if rawLat s = 0 ∧ rawLon s = 0 then false else valid0 cy s
        idx := idx
        flag := s.getD 0 0
        kind := "WP"
        msg := none
        sat := bitcount (toSigned 4 (rawSatMap s))
        r_lat := rawLat s
        r_lon := rawLon s
        datetime :=
          if recDateOK cy s then
            some ⟨recYear cy s, recMonth s, recDay s, recHour s, recMin s,
              recSec s, recMs s⟩
          else none } := by
  simp only [decode]
  rw [if_neg (by omega), if_neg hf1, if_neg hf5]

/-- Kind of every successfully decoded record: `parse_waypoint` is the only
branch of the dispatch that returns at all, so every decoded record is a
waypoint (the log branch raises TypeError, the heartbeat branch
NotImplementedError). -/
theorem decode_ok_kind (cy idx : Nat) (s : List Nat) (r : GTRecord)
    (h : decode cy idx s = .ok r) : r.kind = "WP" := by
  by_cases h1 : s.length < 0x20
  · simp only [decode] at h
    rw [if_pos h1] at h
    cases h
  · by_cases h2 : s.getD 0 0 = 0xF1
    · simp only [decode] at h
      rw [if_neg h1, if_pos h2] at h
      cases h
    · by_cases h3 : s.getD 0 0 = 0xF5
      · simp only [decode] at h
        rw [if_neg h1, if_neg h2, if_pos h3] at h
        cases h
      · rw [decode_ok cy idx s (by omega) h2 h3] at h
        cases h
        rfl

/-- Every record yielded by the `all_records` loop passed the
`record.valid` filter and was decoded by `parse_waypoint`. -/
theorem decodeAll_mem (cy : Nat) (slots : List (List Nat)) :
    ∀ (idx : Nat) (l : List GTRecord), decodeAll cy idx slots = .ok l →
      ∀ r ∈ l, r.valid = true ∧ r.kind = "WP" := by
  induction slots with
  | nil =>
    intro idx l h r hr
    simp only [decodeAll] at h
    cases h
    simp at hr
  | cons s rest ih =>
    intro idx l h r hr
    simp only [decodeAll] at h
    cases hd : decode cy idx s with
    | error e => rw [hd] at h; cases h
    | ok rc =>
      rw [hd] at h
      cases ht : decodeAll cy (idx + 1) rest with
      | error e => rw [ht] at h; cases h
      | ok rs =>
        rw [ht] at h
        cases h
        by_cases hv : rc.valid = true
        · rw [if_pos hv] at hr
          rcases List.mem_cons.mp hr with hr | hr
          · subst hr
            exact ⟨hv, decode_ok_kind cy idx s r hd⟩
          · exact ih (idx + 1) rs ht r hr
        · rw [if_neg hv] at hr
          exact ih (idx + 1) rs ht r hr

/-- Without a `RESET COUNTER` log record in its input, the assembler flushes
at most once (at end of stream), so it yields at most one track. -/
theorem all_tracks_aux_len (l : List GTRecord)
    (h : ∀ r ∈ l, ¬(r.kind = "LOG" ∧ r.msg = some "RESET COUNTER")) :
    ∀ cur, (all_tracks_aux cur l).length ≤ 1 := by
  induction l with
  | nil =>
    intro cur
    simp only [all_tracks_aux]
    split <;> simp
  | cons a t ih =>
    intro cur
    simp only [all_tracks_aux]
    rw [if_neg (h a (by simp))]
    exact ih (fun r hr => h r (by simp [hr])) _

/-! ### Claim C8 -/

/-- C8: a 32-byte record decoded as a waypoint (flag neither `0xF1` nor
`0xF5`) whose raw signed 32-bit latitude and longitude fields are both zero
decodes successfully with `valid == false`, whatever the other fields are. -/
theorem C8_zero_latlon_invalid (cy idx : Nat) (s : List Nat)
    (hlen : s.length = 32) (hf1 : s.getD 0 0 ≠ 0xF1)
    (hf5 : s.getD 0 0 ≠ 0xF5) (hlat : rawLat s = 0) (hlon : rawLon s = 0) :
    ∃ r : GTRecord, decode cy idx s = .ok r ∧ r.valid = false := by
  refine ⟨_, decode_ok cy idx s (by omega) hf1 hf5, ?_⟩
  simp [hlat, hlon]

/-- Witness for C8 on a concrete zero-coordinate record. -/
theorem C8_zero_latlon_invalid_witness :
    ∃ r : GTRecord,
      decode 2026 0 (rawRec 0 [0, 0, 0, 3] [0, 0, 0, 0] [0, 0, 0, 0]) = .ok r
        ∧ r.valid = false :=
  C8_zero_latlon_invalid 2026 0
    (rawRec 0 [0, 0, 0, 3] [0, 0, 0, 0] [0, 0, 0, 0])
    (by decide) (by decide) (by decide) (by decide) (by decide)

/-! ### Claim C9 -/

/-- C9: a 32-byte record whose flag byte is `0xF5` makes decoding raise the
unimplemented-record-kind error (`parse_heartbeat` raises
`NotImplementedError`); no Heartbeat record is ever produced. -/
theorem C9_heartbeat_error (cy idx : Nat) (s : List Nat)
    (hlen : s.length = 32) (hf : s.getD 0 0 = 0xF5) :
    decode cy idx s = .error .notImplementedError := by
  simp only [decode]
  rw [if_neg (by omega), if_neg (by rw [hf]; decide), if_pos hf]

/-- Witness for C9 on a concrete heartbeat-flagged record. -/
theorem C9_heartbeat_error_witness :
    decode 2026 0 (rawRec 0xF5 [0, 0, 0, 0] [0, 0, 0, 0] [0, 0, 0, 0])
      = .error .notImplementedError :=
  C9_heartbeat_error 2026 0
    (rawRec 0xF5 [0, 0, 0, 0] [0, 0, 0, 0] [0, 0, 0, 0])
    (by decide) (by decide)

/-! ### Claim C6 -/

/-- Raw record whose satellite bitmap has only bit 31 set. -/
def crec6 : List Nat := rawRec 0 [0x80, 0, 0, 0] [0, 0, 0, 1] [0, 0, 0, 1]

/-- C6 counterexample: the satellite bitmap `0x80000000` (population count 1)
decodes to a satellite count of 0, because the field is unpacked as a signed
32-bit integer and the `while n > 0` loop of `bitcount` never runs on a
negative value. -/
theorem C6_sat_counterexample :
    decodedSat (decode 2026 0 crec6) = some 0
      ∧ popcount (rawSatMap crec6) = 1
      ∧ (0 : Nat) ≠ 1 := by
  refine ⟨by rfl, by decide, by decide⟩

/-- C6 as amended: the decoded satellite count equals the population count of
the 32-bit satellite bitmap when bit 31 is clear, and equals 0 whenever bit
31 is set (the bitmap is unpacked as a signed 32-bit integer, and the count
loop returns 0 on negatives). -/
theorem C6_sat_popcount (cy idx : Nat) (s : List Nat)
    (hlen : s.length = 32) (hbytes : ∀ b ∈ s, b < 256)
    (hf1 : s.getD 0 0 ≠ 0xF1) (hf5 : s.getD 0 0 ≠ 0xF5) :
    ∃ r : GTRecord, decode cy idx s = .ok r
      ∧ r.sat = (if rawSatMap s < 2 ^ 31 then popcount (rawSatMap s) else 0)
      := by
  refine ⟨_, decode_ok cy idx s (by omega) hf1 hf5, ?_⟩
  show bitcount (toSigned 4 (rawSatMap s)) = _
  have hsub : ∀ b ∈ (s.drop 8).take 4, b < 256 := fun b hb =>
    hbytes b (List.mem_of_mem_drop (List.mem_of_mem_take hb))
  have hlen4 : ((s.drop 8).take 4).length = 4 := by
    simp [List.length_take, List.length_drop, hlen]
  have hv : rawSatMap s < 2 ^ 32 := by
    have := beVal_lt ((s.drop 8).take 4) hsub
    rw [hlen4] at this
    simpa [rawSatMap] using this
  by_cases hcase : rawSatMap s < 2 ^ 31
  · rw [if_pos hcase]
    have hts : toSigned 4 (rawSatMap s) = ((rawSatMap s : Nat) : Int) := by
      simp only [toSigned]
      rw [if_pos]
      exact_mod_cast hcase
    rw [hts]
    exact bitcount_natCast _
  · rw [if_neg hcase]
    refine bitcount_nonpos _ ?_
    simp only [toSigned]
    rw [if_neg (by exact_mod_cast hcase)]
    have : ((rawSatMap s : Nat) : Int) < 2 ^ 32 := by exact_mod_cast hv
    omega

/-- Witness for the amended C6 on a record with satellite bitmap `0b101`. -/
theorem C6_sat_popcount_witness :
    ∃ r : GTRecord,
      decode 2026 0 (rawRec 0 [0, 0, 0, 5] [0, 0, 0, 1] [0, 0, 0, 1]) = .ok r
        ∧ r.sat = (if rawSatMap (rawRec 0 [0, 0, 0, 5] [0, 0, 0, 1]
            [0, 0, 0, 1]) < 2 ^ 31 then
          popcount (rawSatMap (rawRec 0 [0, 0, 0, 5] [0, 0, 0, 1]
            [0, 0, 0, 1])) else 0) :=
  C6_sat_popcount 2026 0 (rawRec 0 [0, 0, 0, 5] [0, 0, 0, 1] [0, 0, 0, 1])
    (by decide) (by decide) (by decide) (by decide)

/-! ### Claim C10 -/

/-- C10: flag `0xF1` has bit `0x20` set, so every log record is marked
invalid before kind dispatch; every record yielded by the record iterator is
valid and (being decodable at all) a waypoint, so the assembler never sees a
`LOG` record; and an input stream with no `RESET COUNTER` log record — in
particular any stream the iterator can produce — yields at most one track. -/
theorem C10_log_records_invisible :
    ((0xF1 : Nat) &&& 0x20 ≠ 0)
    ∧ (∀ (cy : Nat) (s : List Nat), s.getD 0 0 = 0xF1 → valid0 cy s = false)
    ∧ (∀ l : List GTRecord,
        (∀ r ∈ l, ¬(r.kind = "LOG" ∧ r.msg = some "RESET COUNTER")) →
        (all_tracks l).length ≤ 1)
    ∧ (∀ (cy n : Nat) (slots : List (List Nat)) (l : List GTRecord),
        all_records cy n slots = .ok l →
        (∀ r ∈ l, r.valid = true ∧ r.kind = "WP")
          ∧ (all_tracks l).length ≤ 1) := by
  have hlen : ∀ l : List GTRecord,
      (∀ r ∈ l, ¬(r.kind = "LOG" ∧ r.msg = some "RESET COUNTER")) →
      (all_tracks l).length ≤ 1 := fun l h => all_tracks_aux_len l h []
  refine ⟨by decide, ?_, hlen, ?_⟩
  · intro cy s hf
    unfold valid0
    rw [hf]
    simp
  · intro cy n slots l h
    have hmem := decodeAll_mem cy (slots.take n) 0 l h
    refine ⟨hmem, hlen l ?_⟩
    intro r hr hcon
    have := (hmem r hr).2
    rw [this] at hcon
    exact absurd hcon.1 (by decide)

/-- Witness for C10 at a concrete log-flagged record and the empty run. -/
theorem C10_log_records_invisible_witness :
    valid0 2026 (rawRec 0xF1 [0, 0, 0, 0] [0, 0, 0, 0] [0, 0, 0, 0]) = false
    ∧ (all_tracks [wpRec 0, otherRec]).length ≤ 1
    ∧ ((∀ r ∈ ([] : List GTRecord), r.valid = true ∧ r.kind = "WP")
        ∧ (all_tracks ([] : List GTRecord)).length ≤ 1) :=
  ⟨C10_log_records_invisible.2.1 2026
     (rawRec 0xF1 [0, 0, 0, 0] [0, 0, 0, 0] [0, 0, 0, 0]) (by decide),
   C10_log_records_invisible.2.2.1 [wpRec 0, otherRec] (by decide),
   C10_log_records_invisible.2.2.2 2026 0 [] [] rfl⟩

end PyGotu
